import Mathlib

/- Verification development for the rolling-window z-score anomaly detector
in src/project.py.  The program keeps a deque of the most recent
window_size observations, incrementally maintains the window mean and
standard deviation (update_mean_std, lines 19-45), seeds them directly
from the full window the first time it fills (lines 96-98), and flags
points whose absolute z-score exceeds a threshold (lines 69-91).
Real numbers stand in for Python floats; NaN propagation is modelled
separately at the end of the file with an explicit NaN-carrying type. -/

namespace Project

/-- Arithmetic mean of a list, mirroring numpy.mean: sum divided by length. -/
noncomputable def listMean (l : List ℝ) : ℝ := l.sum / l.length

/-- Sum of squared deviations of the entries of a list from a given center. -/
noncomputable def sqDevSum (l : List ℝ) (m : ℝ) : ℝ :=
  (l.map (fun y => (y - m) ^ 2)).sum

/-- Population variance of a list, mirroring numpy.var with its default
ddof = 0: mean squared deviation from the mean. -/
noncomputable def listVar (l : List ℝ) : ℝ := sqDevSum l (listMean l) / l.length

/-- Population standard deviation of a list, mirroring numpy.std. -/
noncomputable def listStd (l : List ℝ) : ℝ := Real.sqrt (listVar l)

/-- Lines 19-45 of src/project.py (update_mean_std): incremental update of
the rolling mean and standard deviation when new_data enters the window
and old_data leaves it.  Note the code multiplies the previous variance
by (window_size - 1), and clamps a negative variance to zero before the
square root. -/
noncomputable def update_mean_std (prev_mean prev_std new_data old_data : ℝ)
    (window_size : ℕ) : ℝ × ℝ :=
  let new_mean := prev_mean + (new_data - old_data) / (window_size : ℝ)
  let new_variance :=
    (prev_std ^ 2 * ((window_size : ℝ) - 1) - (old_data - prev_mean) ^ 2 +
      (new_data - new_mean) ^ 2) / (window_size : ℝ)
  let clamped := if new_variance < 0 then 0 else new_variance
  (new_mean, Real.sqrt clamped)

/-- An emitted record: the data point, its z-score, and the anomaly flag. -/
structure AnomalyRecord where
  value : ℝ
  zscore : ℝ
  is_anomaly : Bool

/-- Lines 74-83 of src/project.py: the z-score of the current data point
against the updated statistics ((data_point - mean) / std_dev when
std_dev is nonzero, 0 otherwise) and the anomaly flag abs(z) > threshold. -/
noncomputable def classify (threshold data_point mean std_dev : ℝ) : AnomalyRecord :=
  let z_score := if std_dev ≠ 0 then (data_point - mean) / std_dev else 0
  ⟨data_point, z_score, if |z_score| > threshold then true else false⟩

/-- The mutable loop state of detect_and_visualize_anomalies: the deque
data_window (oldest first) and the scalars mean and std_dev. -/
structure DetState where
  window : List ℝ
  mean : ℝ
  std_dev : ℝ

/-- Output of one loop iteration: the new state, the record emitted for
this tick (none while the window is still filling), and whether the
direct seeding branch of lines 96-98 executed on this tick. -/
structure StepOut where
  state : DetState
  emitted : Option AnomalyRecord
  seeded : Bool

/-- One iteration of the for-loop at lines 69-98 of src/project.py.
When the window is already full at the top of the loop, the oldest
element data_window[0] leaves, update_mean_std runs and the point is
classified (lines 70-83); then the point is appended, the deque evicting
its head exactly when it was full (line 94, deque with maxlen); finally,
if the window is full and mean == 0 and std_dev == 0, mean and std_dev
are recomputed directly from the window contents (lines 96-98). -/
noncomputable def detectStep (window_size : ℕ) (threshold : ℝ) (s : DetState)
    (data_point : ℝ) : StepOut :=
  let ms : ℝ × ℝ :=
    if s.window.length = window_size then
      update_mean_std s.mean s.std_dev data_point s.window.headI window_size
    else (s.mean, s.std_dev)
  let emitted : Option AnomalyRecord :=
    if s.window.length = window_size then
      some (classify threshold data_point ms.1 ms.2)
    else none
  let window1 : List ℝ :=
    if s.window.length = window_size then s.window.tail ++ [data_point]
    else s.window ++ [data_point]
  if window1.length = window_size ∧ ms.1 = 0 ∧ ms.2 = 0 then
    ⟨⟨window1, listMean window1, listStd window1⟩, emitted, true⟩
  else
    ⟨⟨window1, ms.1, ms.2⟩, emitted, false⟩

/-- Lines 59-60 of src/project.py: empty deque, mean and std_dev zero. -/
def detInit : DetState := ⟨[], 0, 0⟩

/-- Accumulated result of running the detection loop over a finite input:
final state, the emitted records in arrival order, and how many times the
direct seeding branch of lines 96-98 executed. -/
structure RunResult where
  state : DetState
  records : List AnomalyRecord
  seedCount : ℕ

/-- Folds detectStep over a finite list of stream values. -/
noncomputable def runAux (window_size : ℕ) (threshold : ℝ) :
    DetState → List ℝ → RunResult
  | s, [] => ⟨s, [], 0⟩
  | s, x :: xs =>
    let o := detectStep window_size threshold s x
    let r := runAux window_size threshold o.state xs
    ⟨r.state, o.emitted.toList ++ r.records,
      (if o.seeded then 1 else 0) + r.seedCount⟩

/-- The detection loop of detect_and_visualize_anomalies run from its
initial state over a finite prefix of the stream. -/
noncomputable def detectRun (window_size : ℕ) (threshold : ℝ) (xs : List ℝ) :
    RunResult :=
  runAux window_size threshold detInit xs

/- Basic facts about the direct (numpy-style) statistics. -/

lemma sqDevSum_nonneg (l : List ℝ) (m : ℝ) : 0 ≤ sqDevSum l m := by
  apply List.sum_nonneg
  intro a ha
  simp only [List.mem_map] at ha
  obtain ⟨y, -, rfl⟩ := ha
  positivity

lemma listVar_nonneg (l : List ℝ) : 0 ≤ listVar l := by
  unfold listVar
  have h1 := sqDevSum_nonneg l (listMean l)
  have h2 : (0:ℝ) ≤ l.length := by positivity
  positivity

lemma listStd_nonneg (l : List ℝ) : 0 ≤ listStd l := Real.sqrt_nonneg _

lemma sq_listStd (l : List ℝ) : listStd l ^ 2 = listVar l :=
  Real.sq_sqrt (listVar_nonneg l)

lemma listMean_replicate (n : ℕ) (c : ℝ) (hn : n ≠ 0) :
    listMean (List.replicate n c) = c := by
  have hn' : (n:ℝ) ≠ 0 := Nat.cast_ne_zero.mpr hn
  simp [listMean, List.sum_replicate, nsmul_eq_mul]
  field_simp

lemma listVar_replicate (n : ℕ) (c : ℝ) (hn : n ≠ 0) :
    listVar (List.replicate n c) = 0 := by
  have h : sqDevSum (List.replicate n c) c = 0 := by
    unfold sqDevSum
    induction n with
    | zero => simp
    | succ k ih => simp_all [List.replicate_succ]
  simp [listVar, listMean_replicate n c hn, h]

/- Shifting the center of a sum of squared deviations. -/
lemma sqDevSum_shift (l : List ℝ) (m d : ℝ) :
    sqDevSum l (m + d) =
      sqDevSum l m - 2 * d * (l.sum - l.length * m) + l.length * d ^ 2 := by
  induction l with
  | nil => simp [sqDevSum]
  | cons y l ih =>
    simp only [sqDevSum, List.map_cons, List.sum_cons, List.length_cons] at ih ⊢
    push_cast
    linear_combination ih

/- Cauchy-Schwarz for centered sums: the square of the total deviation is at
most the length times the sum of squared deviations. -/
lemma sq_sum_le_length_mul_sqDevSum (l : List ℝ) (m : ℝ) :
    (l.sum - l.length * m) ^ 2 ≤ l.length * sqDevSum l m := by
  induction l with
  | nil => simp [sqDevSum]
  | cons y l ih =>
    have hQ : 0 ≤ sqDevSum l m := sqDevSum_nonneg l m
    by_cases hl : l = []
    · subst hl
      simp only [sqDevSum, List.map_cons, List.sum_cons, List.length_cons,
        List.map_nil, List.sum_nil, List.length_nil]
      push_cast
      nlinarith [sq_nonneg (y - m)]
    · have hlen1 : (1:ℝ) ≤ l.length := by
        have := List.length_pos.mpr hl
        exact_mod_cast this
      simp only [sqDevSum, List.map_cons, List.sum_cons, List.length_cons] at ih ⊢
      push_cast
      nlinarith [sq_nonneg ((l.length : ℝ) * (y - m) - (l.sum - l.length * m)),
        ih, hQ, mul_nonneg (by linarith : (0:ℝ) ≤ (l.length:ℝ)) hQ]

/- Sliding-window identity for sums of squared deviations: drop the head o,
append x, and recenter from mu to mu + d. -/
lemma sqDevSum_slide (o x mu d : ℝ) (t : List ℝ) :
    sqDevSum (t ++ [x]) (mu + d) =
      sqDevSum (o :: t) mu - (o - mu) ^ 2 + (x - (mu + d)) ^ 2
        - 2 * d * (t.sum - t.length * mu) + t.length * d ^ 2 := by
  have h := sqDevSum_shift t mu d
  simp only [sqDevSum, List.map_append, List.sum_append, List.map_cons,
    List.sum_cons, List.map_nil, List.sum_nil] at h ⊢
  linear_combination h

lemma listMean_slide (o x : ℝ) (t : List ℝ) :
    listMean (t ++ [x]) = listMean (o :: t) + (x - o) / ((o :: t).length : ℝ) := by
  have hn : ((t.length : ℝ) + 1) ≠ 0 := by positivity
  simp only [listMean, List.sum_append, List.sum_cons, List.sum_nil,
    List.length_append, List.length_cons, List.length_nil]
  push_cast
  field_simp
  ring

/- Pure-arithmetic core of the sliding-window variance bound: with L the
tail length, mu the window mean, Q the tail sum of squared deviations,
the code's incremental variance numerator stays below the direct one. -/
lemma slide_var_core (o x sd mu L Q : ℝ) (hL0 : 0 ≤ L) (hQ : 0 ≤ Q)
    (hcau : (mu - o) ^ 2 ≤ L * Q)
    (hsd : (L + 1) * sd ^ 2 ≤ (o - mu) ^ 2 + Q) :
    (sd ^ 2 * ((L + 1) - 1) - (o - mu) ^ 2 +
        (x - (mu + (x - o) / (L + 1))) ^ 2) / (L + 1)
      ≤ ((o - mu) ^ 2 + Q - (o - mu) ^ 2 + (x - (mu + (x - o) / (L + 1))) ^ 2
          - 2 * ((x - o) / (L + 1)) * (mu - o) + L * ((x - o) / (L + 1)) ^ 2) /
        (L + 1) := by
  have hN0 : (0:ℝ) < L + 1 := by linarith
  have hE : 0 ≤ (o - mu) ^ 2 + Q + 2 * (L + 1) * ((x - o) / (L + 1)) * (o - mu)
      + (L + 1) * L * ((x - o) / (L + 1)) ^ 2 := by
    rcases eq_or_lt_of_le hL0 with hL | hL
    · have hL' : L = 0 := hL.symm
      subst hL'
      have hmo : mu - o = 0 := by nlinarith [sq_nonneg (mu - o)]
      have ho : o = mu := by linarith
      subst ho
      simp only [sub_self]
      ring_nf
      exact hQ
    · have hid : L * ((o - mu) ^ 2 + Q + 2 * (L + 1) * ((x - o) / (L + 1)) * (o - mu)
          + (L + 1) * L * ((x - o) / (L + 1)) ^ 2)
          = (L + 1) * ((o - mu) + L * ((x - o) / (L + 1))) ^ 2
            + (L * Q - (mu - o) ^ 2) := by
        ring
      nlinarith [hid, hcau, sq_nonneg ((o - mu) + L * ((x - o) / (L + 1))), hL]
  have hslack : 0 ≤ (o - mu) ^ 2 + Q - (L + 1) * sd ^ 2 := by linarith
  have hkey : sd ^ 2 * L - (o - mu) ^ 2
      ≤ Q + 2 * ((x - o) / (L + 1)) * (o - mu) + L * ((x - o) / (L + 1)) ^ 2 := by
    have hmul : 0 ≤ ((o - mu) ^ 2 + Q + 2 * (L + 1) * ((x - o) / (L + 1)) * (o - mu)
        + (L + 1) * L * ((x - o) / (L + 1)) ^ 2)
        + L * ((o - mu) ^ 2 + Q - (L + 1) * sd ^ 2) :=
      add_nonneg hE (mul_nonneg hL0 hslack)
    have hid2 : ((o - mu) ^ 2 + Q + 2 * (L + 1) * ((x - o) / (L + 1)) * (o - mu)
        + (L + 1) * L * ((x - o) / (L + 1)) ^ 2)
        + L * ((o - mu) ^ 2 + Q - (L + 1) * sd ^ 2)
        = (L + 1) * ((Q + 2 * ((x - o) / (L + 1)) * (o - mu)
            + L * ((x - o) / (L + 1)) ^ 2) - (sd ^ 2 * L - (o - mu) ^ 2)) := by
      ring
    rw [hid2] at hmul
    nlinarith [hmul, hN0]
  rw [div_le_div_iff₀ hN0 hN0]
  nlinarith [mul_le_mul_of_nonneg_right
    (by nlinarith [hkey] :
      sd ^ 2 * ((L + 1) - 1) - (o - mu) ^ 2 + (x - (mu + (x - o) / (L + 1))) ^ 2
        ≤ (o - mu) ^ 2 + Q - (o - mu) ^ 2 + (x - (mu + (x - o) / (L + 1))) ^ 2
          - 2 * ((x - o) / (L + 1)) * (mu - o) + L * ((x - o) / (L + 1)) ^ 2)
    (le_of_lt hN0)]

/- The list-level bound: if the held statistics are the exact mean and an
under-approximation of the variance of the full window o :: t, then the
incremental variance numerator of update_mean_std, divided by the window
size, is at most the direct population variance of the slid window. -/
lemma raw_le_slide_var (o x sd : ℝ) (t : List ℝ)
    (hsd : sd ^ 2 ≤ listVar (o :: t)) :
    (sd ^ 2 * (((o :: t).length : ℝ) - 1) - (o - listMean (o :: t)) ^ 2 +
        (x - (listMean (o :: t) + (x - o) / ((o :: t).length : ℝ))) ^ 2) /
        ((o :: t).length : ℝ)
      ≤ listVar (t ++ [x]) := by
  have hL0 : (0:ℝ) ≤ (t.length : ℝ) := by positivity
  have hN0 : (0:ℝ) < (t.length : ℝ) + 1 := by positivity
  have hclen : ((o :: t).length : ℝ) = (t.length : ℝ) + 1 := by
    push_cast [List.length_cons]
    ring
  have hQ : 0 ≤ sqDevSum t (listMean (o :: t)) :=
    sqDevSum_nonneg t (listMean (o :: t))
  have hsumW : o + t.sum = ((t.length : ℝ) + 1) * listMean (o :: t) := by
    rw [listMean]
    simp only [List.sum_cons, List.length_cons]
    push_cast
    field_simp
  have htsum : t.sum - (t.length : ℝ) * listMean (o :: t) = listMean (o :: t) - o := by
    linarith
  have hcau : (listMean (o :: t) - o) ^ 2
      ≤ (t.length : ℝ) * sqDevSum t (listMean (o :: t)) := by
    have h := sq_sum_le_length_mul_sqDevSum t (listMean (o :: t))
    rwa [htsum] at h
  have hWQ : sqDevSum (o :: t) (listMean (o :: t))
      = (o - listMean (o :: t)) ^ 2 + sqDevSum t (listMean (o :: t)) := by
    simp [sqDevSum]
  have hVarW : listVar (o :: t)
      = ((o - listMean (o :: t)) ^ 2 + sqDevSum t (listMean (o :: t)))
        / ((t.length : ℝ) + 1) := by
    rw [listVar, hWQ, hclen]
  have hsd' : ((t.length : ℝ) + 1) * sd ^ 2
      ≤ (o - listMean (o :: t)) ^ 2 + sqDevSum t (listMean (o :: t)) := by
    rw [hVarW] at hsd
    have h2 := mul_le_mul_of_nonneg_left hsd (le_of_lt hN0)
    calc ((t.length : ℝ) + 1) * sd ^ 2
        ≤ ((t.length : ℝ) + 1) * (((o - listMean (o :: t)) ^ 2
            + sqDevSum t (listMean (o :: t))) / ((t.length : ℝ) + 1)) := h2
      _ = (o - listMean (o :: t)) ^ 2 + sqDevSum t (listMean (o :: t)) := by
          field_simp
  have hmean : listMean (t ++ [x])
      = listMean (o :: t) + (x - o) / ((t.length : ℝ) + 1) := by
    rw [listMean_slide o x t, hclen]
  have hlen' : ((t ++ [x]).length : ℝ) = (t.length : ℝ) + 1 := by
    rw [List.length_append, List.length_singleton]
    push_cast
    ring
  have hvar' : listVar (t ++ [x])
      = sqDevSum (t ++ [x]) (listMean (o :: t) + (x - o) / ((t.length : ℝ) + 1))
        / ((t.length : ℝ) + 1) := by
    rw [listVar, hmean, hlen']
  have hslide := sqDevSum_slide o x (listMean (o :: t))
    ((x - o) / ((t.length : ℝ) + 1)) t
  rw [htsum, hWQ] at hslide
  rw [hclen, hvar', hslide]
  have hcore := slide_var_core o x sd (listMean (o :: t)) (t.length : ℝ)
    (sqDevSum t (listMean (o :: t))) hL0 hQ hcau hsd'
  linarith [hcore]


/- update_mean_std written with an explicit max for the clamp. -/
lemma update_mean_std_eq (m sd x o : ℝ) (n : ℕ) :
    update_mean_std m sd x o n =
      (m + (x - o) / (n : ℝ),
        Real.sqrt (max ((sd ^ 2 * ((n : ℝ) - 1) - (o - m) ^ 2 +
          (x - (m + (x - o) / (n : ℝ))) ^ 2) / (n : ℝ)) 0)) := by
  simp only [update_mean_std]
  rw [Prod.mk.injEq]
  refine ⟨rfl, ?_⟩
  congr 1
  by_cases h : (sd ^ 2 * ((n : ℝ) - 1) - (o - m) ^ 2 +
      (x - (m + (x - o) / (n : ℝ))) ^ 2) / (n : ℝ) < 0
  · rw [if_pos h, max_eq_right (le_of_lt h)]
  · rw [if_neg h, max_eq_left (not_lt.mp h)]

/- The incremental update keeps the mean exact and never pushes the held
variance above the direct population variance of the slid window. -/
lemma update_preserves (o x m sd : ℝ) (t : List ℝ) (n : ℕ)
    (hn : (o :: t).length = n) (hm : m = listMean (o :: t))
    (hsd : sd ^ 2 ≤ listVar (o :: t)) :
    (update_mean_std m sd x o n).1 = listMean (t ++ [x]) ∧
      ((update_mean_std m sd x o n).2) ^ 2 ≤ listVar (t ++ [x]) ∧
      0 ≤ (update_mean_std m sd x o n).2 := by
  subst hm
  subst hn
  rw [update_mean_std_eq]
  refine ⟨?_, ?_, Real.sqrt_nonneg _⟩
  · rw [listMean_slide o x t]
  · rw [Real.sq_sqrt (le_max_right _ _)]
    exact max_le (raw_le_slide_var o x sd t hsd) (listVar_nonneg _)

/- Inductive invariant of the detection loop: the window never exceeds its
capacity; while it is still filling, the statistics retain their zero
initialization; once it is full, the held mean is the exact window mean
and the held std_dev is nonnegative with square at most the direct window
variance. -/
def StatsOK (window_size : ℕ) (s : DetState) : Prop :=
  s.window.length ≤ window_size ∧
    (s.window.length < window_size → s.mean = 0 ∧ s.std_dev = 0) ∧
    (s.window.length = window_size →
      s.mean = listMean s.window ∧ s.std_dev ^ 2 ≤ listVar s.window) ∧
    0 ≤ s.std_dev

lemma statsOK_detInit (window_size : ℕ) (hw : 1 ≤ window_size) :
    StatsOK window_size detInit := by
  refine ⟨by simp [detInit], by simp [detInit], ?_, by simp [detInit]⟩
  intro h
  simp [detInit] at h
  omega

lemma statsOK_detectStep (window_size : ℕ) (threshold x : ℝ) (s : DetState)
    (hw : 1 ≤ window_size) (h : StatsOK window_size s) :
    StatsOK window_size (detectStep window_size threshold s x).state := by
  obtain ⟨w, m, sd⟩ := s
  obtain ⟨hle, hfill, hfull, hsd0⟩ := h
  by_cases hf : w.length = window_size
  · cases w with
    | nil =>
      exfalso
      simp only [List.length_nil] at hf
      omega
    | cons o t =>
      obtain ⟨hm, hvar⟩ := hfull hf
      have hlen1 : (t ++ [x]).length = window_size := by
        simp only [List.length_cons] at hf
        simp only [List.length_append, List.length_singleton]
        omega
      obtain ⟨hu1, hu2, hu3⟩ := update_preserves o x m sd t window_size hf hm hvar
      simp only [detectStep, hf, List.headI_cons, List.tail_cons, if_pos rfl,
        eq_self_iff_true, if_true]
      by_cases hseed : ((t ++ [x]).length = window_size ∧
          (update_mean_std m sd x o window_size).1 = 0 ∧
          (update_mean_std m sd x o window_size).2 = 0)
      · rw [if_pos hseed]
        exact ⟨le_of_eq hlen1, fun hlt => absurd hlen1 (Nat.ne_of_lt hlt),
          fun _ => ⟨rfl, le_of_eq (sq_listStd _)⟩, listStd_nonneg _⟩
      · rw [if_neg hseed]
        exact ⟨le_of_eq hlen1, fun hlt => absurd hlen1 (Nat.ne_of_lt hlt),
          fun _ => ⟨hu1, hu2⟩, hu3⟩
  · obtain ⟨hm0, hsd02⟩ := hfill (lt_of_le_of_ne hle hf)
    simp only [detectStep, if_neg hf]
    by_cases hfull1 : (w ++ [x]).length = window_size
    · rw [if_pos ⟨hfull1, hm0, hsd02⟩]
      exact ⟨le_of_eq hfull1, fun hlt => absurd hfull1 (Nat.ne_of_lt hlt),
        fun _ => ⟨rfl, le_of_eq (sq_listStd _)⟩, listStd_nonneg _⟩
    · rw [if_neg (fun hc => hfull1 hc.1)]
      have hlt : w.length < window_size := lt_of_le_of_ne hle hf
      have hlen2 : (w ++ [x]).length = w.length + 1 := by
        simp [List.length_append]
      refine ⟨?_, ?_, ?_, hsd0⟩
      · show (w ++ [x]).length ≤ window_size
        have hlt' : w.length < window_size := hlt
        omega
      · intro hlt2
        exact ⟨hm0, hsd02⟩
      · intro heq
        exact absurd heq hfull1

lemma statsOK_runAux (window_size : ℕ) (threshold : ℝ) (hw : 1 ≤ window_size) :
    ∀ (xs : List ℝ) (s : DetState), StatsOK window_size s →
      StatsOK window_size (runAux window_size threshold s xs).state := by
  intro xs
  induction xs with
  | nil =>
    intro s h
    simpa [runAux] using h
  | cons y ys ih =>
    intro s h
    simp only [runAux]
    exact ih _ (statsOK_detectStep window_size threshold y s hw h)

lemma statsOK_detectRun (window_size : ℕ) (threshold : ℝ) (xs : List ℝ)
    (hw : 1 ≤ window_size) :
    StatsOK window_size (detectRun window_size threshold xs).state :=
  statsOK_runAux window_size threshold hw xs detInit
    (statsOK_detInit window_size hw)

/- The window after one step: append, evicting the head exactly when the
window was full, independently of the seeding branch. -/
lemma detectStep_window (window_size : ℕ) (threshold x : ℝ) (s : DetState) :
    (detectStep window_size threshold s x).state.window =
      if s.window.length = window_size then s.window.tail ++ [x]
      else s.window ++ [x] := by
  simp only [detectStep]
  split_ifs <;> rfl

/- The record emitted by one step: present exactly when the window was
already full at the top of the loop, independently of the seeding branch. -/
lemma detectStep_emitted (window_size : ℕ) (threshold x : ℝ) (s : DetState) :
    (detectStep window_size threshold s x).emitted =
      if s.window.length = window_size then
        some (classify threshold x
          (update_mean_std s.mean s.std_dev x s.window.headI window_size).1
          (update_mean_std s.mean s.std_dev x s.window.headI window_size).2)
      else none := by
  simp only [detectStep]
  split_ifs <;> rfl

lemma window_length_detectStep (window_size : ℕ) (threshold x : ℝ) (s : DetState)
    (hw : 1 ≤ window_size) (hle : s.window.length ≤ window_size) :
    (detectStep window_size threshold s x).state.window.length
      = min (s.window.length + 1) window_size := by
  rw [detectStep_window]
  by_cases hf : s.window.length = window_size
  · rw [if_pos hf]
    simp only [List.length_append, List.length_singleton, List.length_tail]
    omega
  · rw [if_neg hf]
    simp only [List.length_append, List.length_singleton]
    omega

lemma window_length_runAux (window_size : ℕ) (threshold : ℝ) (hw : 1 ≤ window_size) :
    ∀ (xs : List ℝ) (s : DetState), s.window.length ≤ window_size →
      (runAux window_size threshold s xs).state.window.length
        = min (s.window.length + xs.length) window_size := by
  intro xs
  induction xs with
  | nil =>
    intro s hle
    simp only [runAux, List.length_nil, Nat.add_zero]
    omega
  | cons y ys ih =>
    intro s hle
    simp only [runAux]
    have h1 := window_length_detectStep window_size threshold y s hw hle
    have h2 := ih (detectStep window_size threshold s y).state (by omega)
    rw [h1] at h2
    rw [h2]
    simp only [List.length_cons]
    omega

/- The held standard deviation is nonnegative after every step: it is only
ever written as a square root (incremental update or direct seeding). -/
lemma std_nonneg_detectStep (window_size : ℕ) (threshold x : ℝ) (s : DetState)
    (h : 0 ≤ s.std_dev) :
    0 ≤ (detectStep window_size threshold s x).state.std_dev := by
  simp only [detectStep]
  split_ifs with h1 h2 h3
  · exact listStd_nonneg _
  · rw [update_mean_std_eq]
    exact Real.sqrt_nonneg _
  · exact listStd_nonneg _
  · exact h

lemma std_nonneg_runAux (window_size : ℕ) (threshold : ℝ) :
    ∀ (xs : List ℝ) (s : DetState), 0 ≤ s.std_dev →
      0 ≤ (runAux window_size threshold s xs).state.std_dev := by
  intro xs
  induction xs with
  | nil =>
    intro s h
    simpa [runAux] using h
  | cons y ys ih =>
    intro s h
    simp only [runAux]
    exact ih _ (std_nonneg_detectStep window_size threshold y s h)

/- On a constant full window with exact statistics, a step emits the
degenerate-branch record: z-score 0, not an anomaly. -/
lemma constant_window_step (window_size : ℕ) (threshold c : ℝ) (s : DetState)
    (hw : 2 ≤ window_size) (hθ : 0 ≤ threshold) (hOK : StatsOK window_size s)
    (hconst : s.window = List.replicate window_size c) :
    s.std_dev = 0 ∧
    (detectStep window_size threshold s c).emitted = some ⟨c, 0, false⟩ := by
  obtain ⟨hle, hfill, hfull, hsd0⟩ := hOK
  have hlen : s.window.length = window_size := by
    rw [hconst]
    simp
  obtain ⟨hm, hvar⟩ := hfull hlen
  have hvar0 : listVar s.window = 0 := by
    rw [hconst]
    exact listVar_replicate _ _ (by omega)
  have hsd : s.std_dev = 0 := by
    rw [hvar0] at hvar
    have h2 : s.std_dev ^ 2 = 0 := le_antisymm hvar (sq_nonneg _)
    exact pow_eq_zero_iff (by norm_num) |>.mp h2
  have hmc : s.mean = c := by
    rw [hm, hconst, listMean_replicate _ _ (by omega)]
  have hhead : s.window.headI = c := by
    rw [hconst]
    cases window_size with
    | zero => omega
    | succ k => simp [List.replicate_succ]
  refine ⟨hsd, ?_⟩
  rw [detectStep_emitted, if_pos hlen, hhead, hmc, hsd]
  have hupd : update_mean_std c 0 c c window_size = (c, 0) := by
    rw [update_mean_std_eq]
    simp
  rw [hupd]
  have hflag : ¬(|(0:ℝ)| > threshold) := by
    rw [abs_zero]
    exact not_lt.mpr hθ
  simp [classify, hflag, hθ]

/-- C4: for every reachable detector state whose window consists of
window_size copies of one constant value, the held standard deviation is
zero, and a further tick with the same constant emits zscore 0 and
is_anomaly false. -/
theorem c4_constant_window_flat_stats (window_size : ℕ) (threshold : ℝ)
    (xs : List ℝ) (c : ℝ) (hw : 2 ≤ window_size) (hθ : 0 ≤ threshold)
    (hconst : (detectRun window_size threshold xs).state.window
      = List.replicate window_size c) :
    (detectRun window_size threshold xs).state.std_dev = 0 ∧
    (detectStep window_size threshold
        (detectRun window_size threshold xs).state c).emitted
      = some ⟨c, 0, false⟩ :=
  constant_window_step window_size threshold c _ hw hθ
    (statsOK_detectRun window_size threshold xs (by omega)) hconst

/-- C4 witness: with window_size 2, threshold 3 and input [5, 5], the run
reaches the constant window [5, 5]; the conclusions follow from the claim
theorem at that state. -/
theorem c4_constant_window_flat_stats_witness :
    2 ≤ 2 ∧ (0:ℝ) ≤ 3 ∧
    ((detectRun 2 3 [(5:ℝ), 5]).state.std_dev = 0 ∧
      (detectStep 2 3 (detectRun 2 3 [(5:ℝ), 5]).state 5).emitted
        = some ⟨5, 0, false⟩) :=
  ⟨le_refl 2, by norm_num,
    c4_constant_window_flat_stats 2 3 [(5:ℝ), 5] 5 (le_refl 2) (by norm_num)
      (by simp [detectRun, runAux, detectStep, detInit, listMean, listStd,
        listVar, sqDevSum, List.replicate])⟩

/-- C6: after processing any finite input sequence, the window length
equals min(number of values processed, window_size). -/
theorem c6_window_length_invariant (window_size : ℕ) (threshold : ℝ)
    (xs : List ℝ) (hw : 1 ≤ window_size) :
    (detectRun window_size threshold xs).state.window.length
      = min xs.length window_size := by
  have h := window_length_runAux window_size threshold hw xs detInit
    (by simp [detInit])
  simpa [detInit] using h

/-- C6 witness: three values into a window of size 2 leave min(3, 2) = 2
of them buffered. -/
theorem c6_window_length_invariant_witness :
    1 ≤ 2 ∧ (detectRun 2 3 [(1:ℝ), 2, 3]).state.window.length = min 3 2 :=
  ⟨by norm_num, c6_window_length_invariant 2 3 [(1:ℝ), 2, 3] (by norm_num)⟩

/-- C7: on every update, the incrementally computed variance is clamped at
zero, the argument of the square root is nonnegative, and the returned
standard deviation is sqrt(max(new_variance, 0)); in particular a negative
new_variance yields standard deviation 0. -/
theorem c7_variance_clamped (m sd x o : ℝ) (n : ℕ) :
    0 ≤ (if ((sd ^ 2 * ((n : ℝ) - 1) - (o - m) ^ 2 +
          (x - (m + (x - o) / (n : ℝ))) ^ 2) / (n : ℝ)) < 0 then (0:ℝ)
        else ((sd ^ 2 * ((n : ℝ) - 1) - (o - m) ^ 2 +
          (x - (m + (x - o) / (n : ℝ))) ^ 2) / (n : ℝ))) ∧
    (update_mean_std m sd x o n).2 =
      Real.sqrt (max ((sd ^ 2 * ((n : ℝ) - 1) - (o - m) ^ 2 +
        (x - (m + (x - o) / (n : ℝ))) ^ 2) / (n : ℝ)) 0) ∧
    (((sd ^ 2 * ((n : ℝ) - 1) - (o - m) ^ 2 +
        (x - (m + (x - o) / (n : ℝ))) ^ 2) / (n : ℝ)) < 0 →
      (update_mean_std m sd x o n).2 = 0) := by
  refine ⟨?_, ?_, ?_⟩
  · split_ifs with h
    · exact le_refl 0
    · exact not_lt.mp h
  · rw [update_mean_std_eq]
  · intro h
    rw [update_mean_std_eq, max_eq_right (le_of_lt h), Real.sqrt_zero]

/-- C8 counterexample: the claim says the held mean is nonnegative after
every seed, but seeding on the all-negative input [-1, -1] with
window_size 2 leaves mean = -1 < 0. -/
theorem c8_mean_nonneg_counterexample :
    (detectRun 2 3 [(-1:ℝ), -1]).state.mean < 0 := by
  have h : (detectRun 2 3 [(-1:ℝ), -1]).state.mean = -1 := by
    simp [detectRun, runAux, detectStep, detInit, listMean]
  rw [h]
  norm_num

/-- C8 amended: after every seed and every incremental update the held
standard deviation, and hence the held variance std_dev ^ 2, is
nonnegative for every input sequence; the mean satisfies no sign
constraint. -/
theorem c8_std_nonneg_amended (window_size : ℕ) (threshold : ℝ) (xs : List ℝ) :
    0 ≤ (detectRun window_size threshold xs).state.std_dev ∧
    0 ≤ (detectRun window_size threshold xs).state.std_dev ^ 2 :=
  ⟨std_nonneg_runAux window_size threshold xs detInit (le_refl 0), sq_nonneg _⟩

/-- C9: on every streaming tick the emitted record is built by classify on
the updated statistics; the z-score is (value - mean)/std_dev when std_dev
is nonzero and exactly 0 when std_dev is zero, and the degenerate branch is
never flagged as an anomaly for a nonnegative threshold. -/
theorem c9_zscore_guard (window_size : ℕ) (threshold x : ℝ) (s : DetState)
    (hθ : 0 ≤ threshold) (hfull : s.window.length = window_size) :
    (detectStep window_size threshold s x).emitted =
      some (classify threshold x
        (update_mean_std s.mean s.std_dev x s.window.headI window_size).1
        (update_mean_std s.mean s.std_dev x s.window.headI window_size).2) ∧
    (∀ m sd : ℝ, sd ≠ 0 → (classify threshold x m sd).zscore = (x - m) / sd) ∧
    (∀ m : ℝ, (classify threshold x m 0).zscore = 0 ∧
      (classify threshold x m 0).is_anomaly = false) := by
  refine ⟨?_, ?_, ?_⟩
  · rw [detectStep_emitted, if_pos hfull]
  · intro m sd hsd
    simp [classify, hsd]
  · intro m
    have hflag : ¬(|(0:ℝ)| > threshold) := by
      rw [abs_zero]
      exact not_lt.mpr hθ
    constructor
    · simp [classify]
    · simp [classify, hflag, hθ]

/-- C9 witness: at window_size 1 with threshold 3, the degenerate branch on
a zero standard deviation yields z-score 0, unflagged. -/
theorem c9_zscore_guard_witness :
    (0:ℝ) ≤ 3 ∧ (classify 3 2 2 0).zscore = 0 ∧
    (classify 3 2 2 0).is_anomaly = false := by
  refine ⟨by norm_num, ?_, ?_⟩
  · exact ((c9_zscore_guard 1 3 2 ⟨[1], 1, 0⟩ (by norm_num) (by simp)).2.2 2).1
  · exact ((c9_zscore_guard 1 3 2 ⟨[1], 1, 0⟩ (by norm_num) (by simp)).2.2 2).2

/-- C3: the code performs no construction-time validation of window_size.
With window_size = 1 (below the claimed minimum of 2) the detector is
constructed and processes the stream without any error, emitting an
ordinary classification for the second value. -/
theorem c3_no_construction_check :
    (detectRun 1 3 [(1:ℝ), 2]).records = [⟨2, 0, false⟩] ∧
    (detectRun 1 3 [(1:ℝ), 2]).state = ⟨[2], 2, 0⟩ := by
  constructor <;>
    simp [detectRun, runAux, detectStep, detInit, listMean, listStd, listVar,
      sqDevSum, update_mean_std, classify]

/-- C5: on the all-zero input [0, 0, 0] with window_size 2 the direct
seeding branch of lines 96-98 executes twice - once when the window first
fills and again on the next tick - because the (mean, std_dev) == (0, 0)
sentinel collides with the legitimate statistics of an all-zero window. -/
theorem c5_reseed_on_zero_stats :
    (detectRun 2 3 [(0:ℝ), 0, 0]).seedCount = 2 := by
  simp [detectRun, runAux, detectStep, detInit, listMean, listStd, listVar,
    sqDevSum, update_mean_std, classify]

/-- C1 counterexample: seeding exactly on the window [0, 0, 3] (mean 1,
variance 2, std sqrt 2) and sliding to [0, 3, 6], the code returns
variance 2 ^ 2 = 4, while the direct population variance of [0, 3, 6] is 6
and the spec formula (variance * window_size - ...)/window_size gives 14/3:
the code matches neither. -/
theorem c1_variance_formula_counterexample :
    update_mean_std 1 (Real.sqrt 2) 6 0 3 = (3, 2) ∧
    listMean [(0:ℝ), 0, 3] = 1 ∧ listVar [(0:ℝ), 0, 3] = 2 ∧
    listStd [(0:ℝ), 0, 3] = Real.sqrt 2 ∧
    listMean [(0:ℝ), 3, 6] = 3 ∧ listVar [(0:ℝ), 3, 6] = 6 ∧
    ((2:ℝ) ^ 2 ≠ 6) ∧
    ((2 * 3 - (0 - 1) ^ 2 + (6 - 3) ^ 2) / 3 ≠ (2:ℝ) ^ 2) := by
  have hm : listMean [(0:ℝ), 0, 3] = 1 := by
    norm_num [listMean]
  have hv : listVar [(0:ℝ), 0, 3] = 2 := by
    norm_num [listVar, sqDevSum, hm]
  have hm2 : listMean [(0:ℝ), 3, 6] = 3 := by
    norm_num [listMean]
  have hv2 : listVar [(0:ℝ), 3, 6] = 6 := by
    norm_num [listVar, sqDevSum, hm2]
  refine ⟨?_, hm, hv, ?_, hm2, hv2, by norm_num, by norm_num⟩
  · rw [update_mean_std_eq, Prod.mk.injEq]
    constructor
    · norm_num
    · rw [show max (((Real.sqrt 2) ^ 2 * ((3:ℕ) - 1 : ℝ) - (0 - 1) ^ 2 +
          (6 - (1 + (6 - 0) / ((3:ℕ) : ℝ))) ^ 2) / ((3:ℕ) : ℝ)) 0 = 4 by
        rw [Real.sq_sqrt (by norm_num : (0:ℝ) ≤ 2)]
        norm_num]
      rw [show (4:ℝ) = 2 ^ 2 by norm_num, Real.sqrt_sq (by norm_num)]
  · rw [listStd, hv]

/-- C1 amended: the incremental update computes the new mean as
mean + (incoming - outgoing)/window_size, which does equal the direct mean
of the slid window, but the new variance before clamping is
(prev_std ^ 2 * (window_size - 1) - (outgoing - mean) ^ 2 +
(incoming - new_mean) ^ 2) / window_size, with factor window_size - 1
rather than the window_size of the spec formula, and it does not in
general equal the direct population variance of the window contents. -/
theorem c1_variance_formula_amended (o x m sd : ℝ) (t : List ℝ) (n : ℕ)
    (hn : (o :: t).length = n) (hm : m = listMean (o :: t)) :
    (update_mean_std m sd x o n).1 = listMean (t ++ [x]) ∧
    (update_mean_std m sd x o n).2 =
      Real.sqrt (max ((sd ^ 2 * ((n:ℝ) - 1) - (o - m) ^ 2 +
        (x - (m + (x - o) / (n:ℝ))) ^ 2) / (n:ℝ)) 0) := by
  constructor
  · subst hm
    subst hn
    rw [update_mean_std_eq]
    exact (listMean_slide o x t).symm
  · rw [update_mean_std_eq]

/-- C1 amended witness: the concrete slide of the counterexample window. -/
theorem c1_variance_formula_amended_witness :
    ([(0:ℝ)] ++ [0, 3]).length = 3 ∧ (1:ℝ) = listMean [(0:ℝ), 0, 3] ∧
    ((update_mean_std 1 (Real.sqrt 2) 6 0 3).1 = listMean ([(0:ℝ), 3] ++ [6]) ∧
      (update_mean_std 1 (Real.sqrt 2) 6 0 3).2 =
        Real.sqrt (max (((Real.sqrt 2) ^ 2 * ((3:ℕ) - 1 : ℝ) - (0 - 1) ^ 2 +
          (6 - (1 + (6 - 0) / ((3:ℕ) : ℝ))) ^ 2) / ((3:ℕ) : ℝ)) 0)) := by
  refine ⟨by simp, ?_, ?_⟩
  · norm_num [listMean]
  · exact c1_variance_formula_amended 0 6 1 (Real.sqrt 2) [0, 3] 3 (by simp)
      (by norm_num [listMean])

/- Square roots of explicit squares. -/
lemma sqrt_eq_of_sq (a b : ℝ) (hb : 0 ≤ b) (h : a = b ^ 2) : Real.sqrt a = b := by
  rw [h, Real.sqrt_sq hb]

/- A streaming step with a nonempty window, once the seeding branch is
known not to fire. -/
lemma detectStep_stream_cons (window_size : ℕ) (threshold x o : ℝ) (t : List ℝ)
    (m sd : ℝ) (hfull : (o :: t).length = window_size)
    (hnoseed : ¬((t ++ [x]).length = window_size ∧
      (update_mean_std m sd x o window_size).1 = 0 ∧
      (update_mean_std m sd x o window_size).2 = 0)) :
    detectStep window_size threshold ⟨o :: t, m, sd⟩ x =
      ⟨⟨t ++ [x], (update_mean_std m sd x o window_size).1,
          (update_mean_std m sd x o window_size).2⟩,
        some (classify threshold x (update_mean_std m sd x o window_size).1
          (update_mean_std m sd x o window_size).2), false⟩ := by
  simp only [detectStep, hfull, eq_self_iff_true, if_true, List.headI_cons,
    List.tail_cons]
  rw [if_neg hnoseed]

/- Tick-by-tick statistics of the scenario window_size = 5, threshold = 3,
input [1, 1, 1, 1, 1, 1, 50, 1, 1, 1]. -/

lemma c2_upd6 : update_mean_std 1 0 1 1 5 = (1, 0) := by
  rw [update_mean_std_eq, Prod.mk.injEq]
  refine ⟨by norm_num, ?_⟩
  rw [show max ((0 ^ 2 * (((5:ℕ):ℝ) - 1) - ((1:ℝ) - 1) ^ 2 +
      ((1:ℝ) - (1 + (1 - 1) / ((5:ℕ):ℝ))) ^ 2) / ((5:ℕ):ℝ)) 0 = 0 by
    norm_num]
  exact Real.sqrt_zero

lemma c2_cls6 : classify 3 1 1 0 = ⟨1, 0, false⟩ := by
  norm_num [classify]

lemma c2_upd7 : update_mean_std 1 0 50 1 5 = (54/5, Real.sqrt (38416/125)) := by
  rw [update_mean_std_eq, Prod.mk.injEq]
  refine ⟨by norm_num, ?_⟩
  congr 1
  norm_num [max_def]

lemma c2_cls7 : classify 3 50 (54/5) (Real.sqrt (38416/125)) =
    ⟨50, Real.sqrt 5, false⟩ := by
  have h5 : Real.sqrt 5 ≠ 0 := by
    rw [Real.sqrt_ne_zero']
    norm_num
  have h1 : Real.sqrt ((38416:ℝ)/125) ≠ 0 := by
    rw [Real.sqrt_ne_zero']
    norm_num
  have h2 : (50 - (54:ℝ)/5) / Real.sqrt ((38416:ℝ)/125) = Real.sqrt 5 := by
    rw [show Real.sqrt ((38416:ℝ)/125) = (196/5) / Real.sqrt 5 by
      rw [show ((38416:ℝ)/125) = (196/5) ^ 2 / 5 by norm_num]
      rw [Real.sqrt_div (by positivity), Real.sqrt_sq (by norm_num)]]
    field_simp
    ring
  have h3 : Real.sqrt 5 < 3 := by
    rw [Real.sqrt_lt' (by norm_num)]
    norm_num
  have hfl : ¬(|Real.sqrt 5| > 3) := by
    rw [abs_of_nonneg (Real.sqrt_nonneg 5)]
    push_neg
    exact le_of_lt h3
  simp only [classify, if_pos h1, h2]
  rw [if_neg hfl]

lemma c2_upd8 : update_mean_std (54/5) (Real.sqrt (38416/125)) 1 1 5 =
    (54/5, 392/25) := by
  rw [update_mean_std_eq, Prod.mk.injEq]
  refine ⟨by norm_num, ?_⟩
  rw [Real.sq_sqrt (by norm_num : (0:ℝ) ≤ 38416/125)]
  exact sqrt_eq_of_sq _ _ (by norm_num) (by norm_num [max_def])

lemma c2_cls8 : classify 3 1 (54/5) (392/25) = ⟨1, -(5/8), false⟩ := by
  norm_num [classify]
  rw [abs_of_nonneg (by norm_num : (0:ℝ) ≤ 5/8)]
  norm_num

lemma c2_upd9 : update_mean_std (54/5) (392/25) 1 1 5 =
    (54/5, 784/125 * Real.sqrt 5) := by
  rw [update_mean_std_eq, Prod.mk.injEq]
  refine ⟨by norm_num, ?_⟩
  rw [show (784/125 : ℝ) * Real.sqrt 5 = Real.sqrt ((784/125) ^ 2 * 5) by
    rw [Real.sqrt_mul (by positivity), Real.sqrt_sq (by norm_num)]]
  congr 1
  norm_num [max_def]

lemma c2_cls9 : classify 3 1 (54/5) (784/125 * Real.sqrt 5) =
    ⟨1, -(5/16 * Real.sqrt 5), false⟩ := by
  have h5 : (0:ℝ) < Real.sqrt 5 := Real.sqrt_pos.mpr (by norm_num)
  have hne : (784/125 : ℝ) * Real.sqrt 5 ≠ 0 := by positivity
  have hss : Real.sqrt 5 * Real.sqrt 5 = 5 := Real.mul_self_sqrt (by norm_num)
  have hz : ((1:ℝ) - 54/5) / (784/125 * Real.sqrt 5) = -(5/16 * Real.sqrt 5) := by
    rw [div_eq_iff hne]
    linear_combination ((49:ℝ)/25) * hss
  have h3 : Real.sqrt 5 < 3 := by
    rw [Real.sqrt_lt' (by norm_num)]
    norm_num
  have hfl : ¬(|-((5:ℝ)/16 * Real.sqrt 5)| > 3) := by
    rw [abs_neg, abs_of_nonneg (by positivity)]
    push_neg
    nlinarith [h3, Real.sqrt_nonneg 5]
  simp only [classify, if_pos hne, hz]
  rw [if_neg hfl]

lemma c2_upd10 : update_mean_std (54/5) (784/125 * Real.sqrt 5) 1 1 5 =
    (54/5, 1568/125) := by
  rw [update_mean_std_eq, Prod.mk.injEq]
  refine ⟨by norm_num, ?_⟩
  rw [mul_pow, Real.sq_sqrt (by norm_num : (0:ℝ) ≤ 5)]
  exact sqrt_eq_of_sq _ _ (by norm_num) (by norm_num [max_def])

lemma c2_cls10 : classify 3 1 (54/5) (1568/125) = ⟨1, -(25/32), false⟩ := by
  norm_num [classify]
  rw [abs_of_nonneg (by norm_num : (0:ℝ) ≤ 25/32)]
  norm_num

/- The ten loop iterations of the scenario, as rewrite rules. -/

lemma c2_step1 : detectStep 5 3 detInit 1 = ⟨⟨[1], 0, 0⟩, none, false⟩ := by
  simp [detectStep, detInit]

lemma c2_step2 : detectStep 5 3 ⟨[1], 0, 0⟩ 1 = ⟨⟨[1, 1], 0, 0⟩, none, false⟩ := by
  simp [detectStep]

lemma c2_step3 : detectStep 5 3 ⟨[1, 1], 0, 0⟩ 1 =
    ⟨⟨[1, 1, 1], 0, 0⟩, none, false⟩ := by
  simp [detectStep]

lemma c2_step4 : detectStep 5 3 ⟨[1, 1, 1], 0, 0⟩ 1 =
    ⟨⟨[1, 1, 1, 1], 0, 0⟩, none, false⟩ := by
  simp [detectStep]

lemma c2_step5 : detectStep 5 3 ⟨[1, 1, 1, 1], 0, 0⟩ 1 =
    ⟨⟨[1, 1, 1, 1, 1], 1, 0⟩, none, true⟩ := by
  simp [detectStep, listStd, listVar, sqDevSum, listMean]
  norm_num

lemma c2_step6 : detectStep 5 3 ⟨[1, 1, 1, 1, 1], 1, 0⟩ 1 =
    ⟨⟨[1, 1, 1, 1, 1], 1, 0⟩, some ⟨1, 0, false⟩, false⟩ := by
  rw [detectStep_stream_cons 5 3 1 1 [1, 1, 1, 1] 1 0 (by norm_num)
    (by rintro ⟨-, h1, -⟩; rw [c2_upd6] at h1; norm_num at h1)]
  rw [c2_upd6, c2_cls6]
  rfl

lemma c2_step7 : detectStep 5 3 ⟨[1, 1, 1, 1, 1], 1, 0⟩ 50 =
    ⟨⟨[1, 1, 1, 1, 50], 54/5, Real.sqrt (38416/125)⟩,
      some ⟨50, Real.sqrt 5, false⟩, false⟩ := by
  rw [detectStep_stream_cons 5 3 50 1 [1, 1, 1, 1] 1 0 (by norm_num)
    (by rintro ⟨-, h1, -⟩; rw [c2_upd7] at h1; norm_num at h1)]
  rw [c2_upd7, c2_cls7]
  rfl

lemma c2_step8 : detectStep 5 3 ⟨[1, 1, 1, 1, 50], 54/5, Real.sqrt (38416/125)⟩ 1 =
    ⟨⟨[1, 1, 1, 50, 1], 54/5, 392/25⟩, some ⟨1, -(5/8), false⟩, false⟩ := by
  rw [detectStep_stream_cons 5 3 1 1 [1, 1, 1, 50] (54/5) (Real.sqrt (38416/125))
    (by norm_num)
    (by rintro ⟨-, h1, -⟩; rw [c2_upd8] at h1; norm_num at h1)]
  rw [c2_upd8, c2_cls8]
  rfl

lemma c2_step9 : detectStep 5 3 ⟨[1, 1, 1, 50, 1], 54/5, 392/25⟩ 1 =
    ⟨⟨[1, 1, 50, 1, 1], 54/5, 784/125 * Real.sqrt 5⟩,
      some ⟨1, -(5/16 * Real.sqrt 5), false⟩, false⟩ := by
  rw [detectStep_stream_cons 5 3 1 1 [1, 1, 50, 1] (54/5) (392/25) (by norm_num)
    (by rintro ⟨-, h1, -⟩; rw [c2_upd9] at h1; norm_num at h1)]
  rw [c2_upd9, c2_cls9]
  rfl

lemma c2_step10 : detectStep 5 3 ⟨[1, 1, 50, 1, 1], 54/5, 784/125 * Real.sqrt 5⟩ 1 =
    ⟨⟨[1, 50, 1, 1, 1], 54/5, 1568/125⟩, some ⟨1, -(25/32), false⟩, false⟩ := by
  rw [detectStep_stream_cons 5 3 1 1 [1, 50, 1, 1] (54/5) (784/125 * Real.sqrt 5)
    (by norm_num)
    (by rintro ⟨-, h1, -⟩; rw [c2_upd10] at h1; norm_num at h1)]
  rw [c2_upd10, c2_cls10]
  rfl

/- The full record trace of the scenario. -/
lemma c2_records :
    (detectRun 5 3 [1, 1, 1, 1, 1, 1, 50, 1, 1, 1]).records =
      [⟨1, 0, false⟩, ⟨50, Real.sqrt 5, false⟩, ⟨1, -(5/8), false⟩,
        ⟨1, -(5/16 * Real.sqrt 5), false⟩, ⟨1, -(25/32), false⟩] := by
  simp only [detectRun, runAux, c2_step1, c2_step2, c2_step3, c2_step4, c2_step5,
    c2_step6, c2_step7, c2_step8, c2_step9, c2_step10, Option.toList,
    List.nil_append, List.cons_append, List.append_nil]

/-- C2 counterexample: in the scenario window_size = 5, threshold = 3 with
input [1,1,1,1,1,1,50,1,1,1], the record emitted on the tick at which 50
enters the already-full window is ⟨50, sqrt 5, false⟩: its z-score
sqrt 5 ≈ 2.236 does not exceed 3 and the point is not flagged, contrary to
the claim. -/
theorem c2_spike_scenario_counterexample :
    (detectRun 5 3 [1, 1, 1, 1, 1, 1, 50, 1, 1, 1]).records.get? 1 =
      some ⟨50, Real.sqrt 5, false⟩ ∧ Real.sqrt 5 < 3 := by
  constructor
  · rw [c2_records]
    rfl
  · rw [Real.sqrt_lt' (by norm_num)]
    norm_num

/-- C2 amended: in the scenario the tick at which 50 enters the full window
emits z-score sqrt 5 < 3 with is_anomaly = false, and the subsequent 1s are
emitted with low z-scores; no record of the run is flagged as an anomaly. -/
theorem c2_spike_scenario_amended :
    (detectRun 5 3 [1, 1, 1, 1, 1, 1, 50, 1, 1, 1]).records =
      [⟨1, 0, false⟩, ⟨50, Real.sqrt 5, false⟩, ⟨1, -(5/8), false⟩,
        ⟨1, -(5/16 * Real.sqrt 5), false⟩, ⟨1, -(25/32), false⟩] ∧
    Real.sqrt 5 < 3 ∧
    ∀ r ∈ (detectRun 5 3 [1, 1, 1, 1, 1, 1, 50, 1, 1, 1]).records,
      r.is_anomaly = false := by
  refine ⟨c2_records, ?_, ?_⟩
  · rw [Real.sqrt_lt' (by norm_num)]
    norm_num
  · rw [c2_records]
    intro r hr
    simp only [List.mem_cons, List.not_mem_nil, or_false] at hr
    rcases hr with rfl | rfl | rfl | rfl | rfl <;> rfl

/- Model of IEEE-754 NaN propagation for the numeric path of the loop: a
Python float is either NaN or an ordinary (here real-valued) number.
Arithmetic propagates NaN, every ordered comparison involving NaN is
false, and NaN != 0 is true.  Division of an ordinary value by an ordinary
value follows real division; the guarded code path never divides by an
ordinary zero. -/
inductive NFloat where
  | nan : NFloat
  | val : ℝ → NFloat

noncomputable def nfAdd : NFloat → NFloat → NFloat
  | NFloat.nan, _ => NFloat.nan
  | _, NFloat.nan => NFloat.nan
  | NFloat.val a, NFloat.val b => NFloat.val (a + b)

noncomputable def nfSub : NFloat → NFloat → NFloat
  | NFloat.nan, _ => NFloat.nan
  | _, NFloat.nan => NFloat.nan
  | NFloat.val a, NFloat.val b => NFloat.val (a - b)

noncomputable def nfMul : NFloat → NFloat → NFloat
  | NFloat.nan, _ => NFloat.nan
  | _, NFloat.nan => NFloat.nan
  | NFloat.val a, NFloat.val b => NFloat.val (a * b)

noncomputable def nfDiv : NFloat → NFloat → NFloat
  | NFloat.nan, _ => NFloat.nan
  | _, NFloat.nan => NFloat.nan
  | NFloat.val a, NFloat.val b => NFloat.val (a / b)

/- numpy.sqrt: NaN in, NaN out.  (On a negative ordinary input numpy
returns NaN; the clamp in update_mean_std makes that case unreachable.) -/
noncomputable def nfSqrt : NFloat → NFloat
  | NFloat.nan => NFloat.nan
  | NFloat.val a => NFloat.val (Real.sqrt a)

/- The Python test std_dev != 0 of line 75: NaN compares unequal to 0. -/
noncomputable def nfNeZero : NFloat → Bool
  | NFloat.nan => true
  | NFloat.val a => if a = 0 then false else true

/- The Python test x < y: false whenever either side is NaN. -/
noncomputable def nfLt : NFloat → NFloat → Bool
  | NFloat.nan, _ => false
  | _, NFloat.nan => false
  | NFloat.val a, NFloat.val b => if a < b then true else false

noncomputable def nfAbs : NFloat → NFloat
  | NFloat.nan => NFloat.nan
  | NFloat.val a => NFloat.val |a|

/- Lines 19-45 over NaN-aware floats. -/
noncomputable def update_mean_stdNF (prev_mean prev_std new_data old_data : NFloat)
    (window_size : ℕ) : NFloat × NFloat :=
  let n : NFloat := NFloat.val (window_size : ℝ)
  let new_mean := nfAdd prev_mean (nfDiv (nfSub new_data old_data) n)
  let new_variance :=
    nfDiv (nfAdd (nfSub (nfMul (nfMul prev_std prev_std)
        (NFloat.val ((window_size : ℝ) - 1)))
      (nfMul (nfSub old_data prev_mean) (nfSub old_data prev_mean)))
      (nfMul (nfSub new_data new_mean) (nfSub new_data new_mean))) n
  let clamped := if nfLt new_variance (NFloat.val 0) then NFloat.val 0
    else new_variance
  (new_mean, nfSqrt clamped)

/- Lines 74-83 over NaN-aware floats: the z-score and the anomaly test
abs(z_score) > threshold. -/
noncomputable def classifyNF (threshold : ℝ) (data_point mean std_dev : NFloat) :
    NFloat × Bool :=
  let z_score := if nfNeZero std_dev then nfDiv (nfSub data_point mean) std_dev
    else NFloat.val 0
  (z_score, nfLt (NFloat.val threshold) (nfAbs z_score))

/-- C10: when the held standard deviation is NaN, processing does not fail:
the guard std_dev != 0 evaluates to true for NaN, the emitted z-score is
NaN, and is_anomaly is false because abs(NaN) > threshold is false; and a
NaN data point entering the incremental update propagates NaN into both
updated statistics. -/
theorem c10_nan_passthrough (x mean : NFloat) (threshold : ℝ) (m sd o : ℝ)
    (n : ℕ) :
    nfNeZero NFloat.nan = true ∧
    (classifyNF threshold x mean NFloat.nan).1 = NFloat.nan ∧
    (classifyNF threshold x mean NFloat.nan).2 = false ∧
    update_mean_stdNF (NFloat.val m) (NFloat.val sd) NFloat.nan (NFloat.val o) n
      = (NFloat.nan, NFloat.nan) := by
  refine ⟨rfl, ?_, ?_, ?_⟩
  · cases x <;> cases mean <;> simp [classifyNF, nfNeZero, nfDiv, nfSub]
  · cases x <;> cases mean <;>
      simp [classifyNF, nfNeZero, nfDiv, nfSub, nfAbs, nfLt]
  · simp [update_mean_stdNF, nfAdd, nfSub, nfMul, nfDiv, nfSqrt, nfLt]

end Project
